import Mathlib

/-!
Verification of the parameter-descriptor core of OPL3box (`src/UI.h`):
the polymorphic `OperatorValue` contract (clamped encoder increments,
name and value string rendering) together with its ten concrete variants
binding the fields of an externally owned `OPL3::OperatorSetup` record.
-/

namespace OPL3box

/-- Modelled from the spec: `OPL3::OperatorSetup` is external to this
repository (only its fields are read and written by `UI.h`).  Per the
spec it is the operator-state record with one scalar field per editable
parameter, with known native bit widths: a waveform enumeration, a
4-bit frequency multiplier, four 1-bit boolean flags (ksr, egt, vib,
am) and four 4-bit envelope fields (ar, dr, sl, rr).  Each field stores
its raw bits as a natural number. -/
structure OperatorSetup where
  waveform : Nat
  mult : Nat
  ksr : Nat
  egt : Nat
  vib : Nat
  am : Nat
  ar : Nat
  dr : Nat
  sl : Nat
  rr : Nat
deriving DecidableEq, Repr

/-- The all-zero operator state, used as a concrete starting point. -/
def zeroSetup : OperatorSetup :=
  ⟨0, 0, 0, 0, 0, 0, 0, 0, 0, 0⟩

/-- Shallow embedding of the abstract `OperatorValue` base class of
`src/UI.h`.  The virtual `getValue`/`setValue` pair becomes a pair of
function fields; the name format strings of the form `"OP%d ..."` are
carried as the text before and after the `%d` placeholder; the optional
`const char **` label table becomes an optional list whose entries are
optional (a `char *` entry may be null). -/
structure OperatorValue where
  operatorNr : Nat
  maxValue : Int
  nameBefore : String
  nameAfter : String
  valueNames : Option (List (Option String))
  getValue : OperatorSetup → Int
  setValue : Int → OperatorSetup → OperatorSetup

/-- `OperatorValue::onEncoderDelta`:
`setValue(max(0, min(maxValue - 1, getValue() + delta)))`. -/
def onEncoderDelta (d : OperatorValue) (delta : Int) (s : OperatorSetup) :
    OperatorSetup :=
  d.setValue (max 0 (min (d.maxValue - 1) (d.getValue s + delta))) s

/-- The full text produced by `snprintf(buf, len, displayNameFormat,
operatorNr)` before truncation: the format string with the single `%d`
replaced by the decimal rendering of the operator number. -/
def formatName (d : OperatorValue) : String :=
  d.nameBefore ++ toString d.operatorNr ++ d.nameAfter

/-- `snprintf` truncation: with a buffer of `len` bytes, at most
`len - 1` characters are stored, followed by the terminating NUL. -/
def truncateTo (len : Nat) (s : String) : String :=
  String.mk (s.data.take (len - 1))

/-- `OperatorValue::getParamString`: the C string left in the buffer. -/
def getParamString (d : OperatorValue) (len : Nat) : String :=
  truncateTo len (formatName d)

/-- `snprintf(buf, len, "%x", value)` for a non-negative value:
lowercase hexadecimal with no padding. -/
def hexString (n : Nat) : String :=
  String.mk (Nat.toDigits 16 n)

/-- The full text produced by `OperatorValue::getValueString` before
truncation, mirroring the body: `valueString` starts out null, is set
from the label table when one is present, and the raw value is printed
in hexadecimal when `valueString` is still null. -/
def valueStringContent (d : OperatorValue) (s : OperatorSetup) : String :=
  let value := d.getValue s
  let valueString : Option String :=
    match d.valueNames with
    | some tbl => (tbl[value.toNat]?).getD none
    | none => none
  match valueString with
  | some str => str
  | none => hexString value.toNat

/-- `OperatorValue::getValueString`: the C string left in the buffer. -/
def getValueString (d : OperatorValue) (s : OperatorSetup) (len : Nat) :
    String :=
  truncateTo len (valueStringContent d s)

/-- `WaveformChoices` from `src/UI.h`. -/
def WaveformChoices : List (Option String) :=
  [some "Sine", some "HalfSine", some "AbsSine", some "PulseSine"]

/-- `WaveformValue`: binds `oplOperator.waveform`; the write casts to
`OPL3::Waveform` (3-bit hardware waveform code, spec-modelled width). -/
def WaveformValue (nr : Nat) : OperatorValue where
  operatorNr := nr
  maxValue := (WaveformChoices.length : Int)
  nameBefore := "OP"
  nameAfter := " Waveform"
  valueNames := some WaveformChoices
  getValue := fun s => (s.waveform : Int)
  setValue := fun v s => { s with waveform := (v % 8).toNat }

/-- `FrequencyMultiplierChoices` from `src/UI.h`, duplicates included. -/
def FrequencyMultiplierChoices : List (Option String) :=
  [some "0.5", some "1", some "2", some "3",
   some "4", some "5", some "6", some "7",
   some "8", some "9", some "10", some "10",
   some "12", some "12", some "15", some "15"]

/-- `FrequencyMutliplierValue` (name as in the source): binds the 4-bit
`oplOperator.mult` field. -/
def FrequencyMutliplierValue (nr : Nat) : OperatorValue where
  operatorNr := nr
  maxValue := (FrequencyMultiplierChoices.length : Int)
  nameBefore := "OP"
  nameAfter := " Freq Mult"
  valueNames := some FrequencyMultiplierChoices
  getValue := fun s => (s.mult : Int)
  setValue := fun v s => { s with mult := (v % 16).toNat }

/-- `BoolChoices` from `src/UI.h`. -/
def BoolChoices : List (Option String) :=
  [some "OFF", some "ON"]

/-- `EnvScalingValue`: binds the 1-bit `oplOperator.ksr` flag. -/
def EnvScalingValue (nr : Nat) : OperatorValue where
  operatorNr := nr
  maxValue := (BoolChoices.length : Int)
  nameBefore := "OP"
  nameAfter := " Env Scale"
  valueNames := some BoolChoices
  getValue := fun s => (s.ksr : Int)
  setValue := fun v s => { s with ksr := (v % 2).toNat }

/-- `SustainHoldValue`: binds the 1-bit `oplOperator.egt` flag. -/
def SustainHoldValue (nr : Nat) : OperatorValue where
  operatorNr := nr
  maxValue := (BoolChoices.length : Int)
  nameBefore := "OP"
  nameAfter := " Sus Hold"
  valueNames := some BoolChoices
  getValue := fun s => (s.egt : Int)
  setValue := fun v s => { s with egt := (v % 2).toNat }

/-- `VibratoValue`: binds the 1-bit `oplOperator.vib` flag. -/
def VibratoValue (nr : Nat) : OperatorValue where
  operatorNr := nr
  maxValue := (BoolChoices.length : Int)
  nameBefore := "OP"
  nameAfter := " Vibrato"
  valueNames := some BoolChoices
  getValue := fun s => (s.vib : Int)
  setValue := fun v s => { s with vib := (v % 2).toNat }

/-- `TremoloValue`: binds the 1-bit `oplOperator.am` flag. -/
def TremoloValue (nr : Nat) : OperatorValue where
  operatorNr := nr
  maxValue := (BoolChoices.length : Int)
  nameBefore := "OP"
  nameAfter := " Tremolo"
  valueNames := some BoolChoices
  getValue := fun s => (s.am : Int)
  setValue := fun v s => { s with am := (v % 2).toNat }

/-- `AttackValue`: binds the 4-bit `oplOperator.ar` field; `maxValue`
is the literal `0x10` and there is no label table. -/
def AttackValue (nr : Nat) : OperatorValue where
  operatorNr := nr
  maxValue := 0x10
  nameBefore := "OP"
  nameAfter := " Attack"
  valueNames := none
  getValue := fun s => (s.ar : Int)
  setValue := fun v s => { s with ar := (v % 16).toNat }

/-- `DecayValue`: binds the 4-bit `oplOperator.dr` field. -/
def DecayValue (nr : Nat) : OperatorValue where
  operatorNr := nr
  maxValue := 0x10
  nameBefore := "OP"
  nameAfter := " Decay"
  valueNames := none
  getValue := fun s => (s.dr : Int)
  setValue := fun v s => { s with dr := (v % 16).toNat }

/-- `SustainValue`: binds the 4-bit `oplOperator.sl` field. -/
def SustainValue (nr : Nat) : OperatorValue where
  operatorNr := nr
  maxValue := 0x10
  nameBefore := "OP"
  nameAfter := " Sustain"
  valueNames := none
  getValue := fun s => (s.sl : Int)
  setValue := fun v s => { s with sl := (v % 16).toNat }

/-- `ReleaseValue`: binds the 4-bit `oplOperator.rr` field. -/
def ReleaseValue (nr : Nat) : OperatorValue where
  operatorNr := nr
  maxValue := 0x10
  nameBefore := "OP"
  nameAfter := " Release"
  valueNames := none
  getValue := fun s => (s.rr : Int)
  setValue := fun v s => { s with rr := (v % 16).toNat }

/-- The ten concrete descriptor variants of `src/UI.h`. -/
inductive Param where
  | waveform | freqMult | envScaling | sustainHold | vibrato
  | tremolo | attack | decay | sustain | release
deriving DecidableEq, Repr

/-- The descriptor a variant's constructor builds for operator `nr`. -/
def descriptorOf : Param → Nat → OperatorValue
  | .waveform => WaveformValue
  | .freqMult => FrequencyMutliplierValue
  | .envScaling => EnvScalingValue
  | .sustainHold => SustainHoldValue
  | .vibrato => VibratoValue
  | .tremolo => TremoloValue
  | .attack => AttackValue
  | .decay => DecayValue
  | .sustain => SustainValue
  | .release => ReleaseValue

/-- The named fields of the operator-state record. -/
inductive Field where
  | waveform | mult | ksr | egt | vib | am | ar | dr | sl | rr
deriving DecidableEq, Repr

/-- Raw read of one named field of the operator-state record. -/
def readField : Field → OperatorSetup → Nat
  | .waveform, s => s.waveform
  | .mult, s => s.mult
  | .ksr, s => s.ksr
  | .egt, s => s.egt
  | .vib, s => s.vib
  | .am, s => s.am
  | .ar, s => s.ar
  | .dr, s => s.dr
  | .sl, s => s.sl
  | .rr, s => s.rr

/-- The one field each variant binds at construction. -/
def boundField : Param → Field
  | .waveform => .waveform
  | .freqMult => .mult
  | .envScaling => .ksr
  | .sustainHold => .egt
  | .vibrato => .vib
  | .tremolo => .am
  | .attack => .ar
  | .decay => .dr
  | .sustain => .sl
  | .release => .rr

/-- A descriptor whose write is lossless over `[0, maxValue)`:
`setValue v` followed by `getValue` returns `v`. -/
def Faithful (d : OperatorValue) : Prop :=
  ∀ v s, 0 ≤ v → v < d.maxValue → d.getValue (d.setValue v s) = v

lemma modNat_cast (v w : Int) (h0 : 0 ≤ v) (h1 : v < w) :
    ((v % w).toNat : Int) = v := by
  rw [Int.emod_eq_of_lt h0 h1, Int.toNat_of_nonneg h0]

/-- The exclusive upper bound each variant's constructor passes to the
base class, as a closed value. -/
def maxValueOf : Param → Int
  | .waveform => 4
  | .freqMult => 16
  | .envScaling => 2
  | .sustainHold => 2
  | .vibrato => 2
  | .tremolo => 2
  | .attack => 16
  | .decay => 16
  | .sustain => 16
  | .release => 16

lemma maxValue_descriptorOf (p : Param) (nr : Nat) :
    (descriptorOf p nr).maxValue = maxValueOf p := by
  cases p <;> rfl

lemma faithful_all (p : Param) (nr : Nat) : Faithful (descriptorOf p nr) := by
  cases p <;> intro v s h0 h1 <;> rw [maxValue_descriptorOf] at h1 <;>
    exact modNat_cast v _ h0 (lt_of_lt_of_le h1 (by decide))

lemma one_le_maxValue (p : Param) (nr : Nat) :
    1 ≤ (descriptorOf p nr).maxValue := by
  rw [maxValue_descriptorOf]
  cases p <;> decide

lemma clamped_getValue (d : OperatorValue) (hf : Faithful d)
    (hm : 1 ≤ d.maxValue) (delta : Int) (s : OperatorSetup) :
    d.getValue (onEncoderDelta d delta s) =
      max 0 (min (d.maxValue - 1) (d.getValue s + delta)) := by
  unfold onEncoderDelta
  refine hf _ s (le_max_left 0 _) ?_
  have h2 : min (d.maxValue - 1) (d.getValue s + delta) ≤ d.maxValue - 1 :=
    min_le_left _ _
  exact max_lt (by omega) (by omega)

lemma boundary_low (d : OperatorValue) (hf : Faithful d) (hm : 1 ≤ d.maxValue)
    (delta : Int) (s : OperatorSetup) (hv : d.getValue s = 0) (hd : delta < 0) :
    d.getValue (onEncoderDelta d delta s) = 0 := by
  rw [clamped_getValue d hf hm, hv]
  rw [min_eq_right (show (0:Int) + delta ≤ d.maxValue - 1 by omega)]
  exact max_eq_left (by omega)

lemma boundary_high (d : OperatorValue) (hf : Faithful d) (hm : 1 ≤ d.maxValue)
    (delta : Int) (s : OperatorSetup) (hv : d.getValue s = d.maxValue - 1)
    (hd : 0 < delta) :
    d.getValue (onEncoderDelta d delta s) = d.maxValue - 1 := by
  rw [clamped_getValue d hf hm, hv]
  rw [min_eq_left (show d.maxValue - 1 ≤ d.maxValue - 1 + delta by omega)]
  exact max_eq_right (by omega)

lemma get_some_of_all_isSome (tbl : List (Option String))
    (h : ∀ e ∈ tbl, e.isSome) (n : Nat) (hn : n < tbl.length) :
    ∃ lbl, tbl[n]? = some (some lbl) := by
  obtain ⟨lbl, hlbl⟩ :=
    Option.isSome_iff_exists.mp (h _ (tbl.get_mem n hn))
  exact ⟨lbl, by rw [List.getElem?_eq_getElem hn]; exact congrArg some hlbl⟩

lemma enumerated_safe_generic (d : OperatorValue) (tbl : List (Option String))
    (s : OperatorSetup)
    (htbl : d.valueNames = some tbl)
    (hall : ∀ e ∈ tbl, e.isSome)
    (hnonneg : 0 ≤ d.getValue s)
    (hmax : (tbl.length : Int) = d.maxValue)
    (hs : d.getValue s < d.maxValue) :
    ∃ lbl, tbl[(d.getValue s).toNat]? = some (some lbl) ∧
      valueStringContent d s = lbl := by
  have hn : (d.getValue s).toNat < tbl.length := by
    rw [← hmax] at hs; omega
  obtain ⟨lbl, hget⟩ := get_some_of_all_isSome tbl hall _ hn
  refine ⟨lbl, hget, ?_⟩
  simp [valueStringContent, htbl, hget]

lemma hexString_length_one : ∀ n < 16, (hexString n).length = 1 := by
  decide

/-- C1: for every descriptor variant, starting field value, and integer
delta, after `onEncoderDelta(delta)` the value satisfies
`0 ≤ getValue() < maxValue`, and the new value is exactly the clamp of
the old value plus delta, saturating at `0` and `maxValue - 1` rather
than wrapping. -/
theorem onEncoderDelta_saturates (p : Param) (nr : Nat) (delta : Int)
    (s : OperatorSetup) :
    0 ≤ (descriptorOf p nr).getValue (onEncoderDelta (descriptorOf p nr) delta s) ∧
    (descriptorOf p nr).getValue (onEncoderDelta (descriptorOf p nr) delta s) <
      (descriptorOf p nr).maxValue ∧
    (descriptorOf p nr).getValue (onEncoderDelta (descriptorOf p nr) delta s) =
      max 0 (min ((descriptorOf p nr).maxValue - 1)
        ((descriptorOf p nr).getValue s + delta)) := by
  have hm := one_le_maxValue p nr
  have hc := clamped_getValue (descriptorOf p nr) (faithful_all p nr) hm delta s
  refine ⟨?_, ?_, hc⟩
  · rw [hc]; exact le_max_left 0 _
  · rw [hc]
    have h2 : min ((descriptorOf p nr).maxValue - 1)
        ((descriptorOf p nr).getValue s + delta) ≤
        (descriptorOf p nr).maxValue - 1 := min_le_left _ _
    exact max_lt (by omega) (by omega)

/-- C2: for every descriptor variant and every `v` with
`0 ≤ v < maxValue`, `setValue(v)` followed by `getValue()` returns
exactly `v`: the narrowing to the field's native storage width is
lossless over the whole domain. -/
theorem setValue_getValue_roundtrip (p : Param) (nr : Nat) (v : Int)
    (s : OperatorSetup) (h0 : 0 ≤ v) (h1 : v < (descriptorOf p nr).maxValue) :
    (descriptorOf p nr).getValue ((descriptorOf p nr).setValue v s) = v :=
  faithful_all p nr v s h0 h1

/-- Witness for C2: the attack descriptor round-trips the value 9. -/
theorem setValue_getValue_roundtrip_witness :
    (descriptorOf .attack 1).getValue
      ((descriptorOf .attack 1).setValue 9 zeroSetup) = 9 :=
  setValue_getValue_roundtrip .attack 1 9 zeroSetup (by decide) (by decide)

/-- C3: the shared `OperatorValue::getValueString` renders, for any
descriptor and as a function of the current value: with a label table,
the label found at index `getValue()` verbatim; with no table, or when
the lookup at that index yields no label (a null entry), the raw value
as a hexadecimal numeral (one fixed digit over the reachable domain),
the truncated buffer holding the whole rendering whenever it fits. -/
theorem getValueString_rendering (d : OperatorValue) (s : OperatorSetup)
    (len : Nat)
    (hlen : (valueStringContent d s).length < len) :
    (getValueString d s len = valueStringContent d s) ∧
    (∀ tbl lbl, d.valueNames = some tbl →
      tbl[(d.getValue s).toNat]? = some (some lbl) →
      valueStringContent d s = lbl) ∧
    (d.valueNames = none →
      valueStringContent d s = hexString (d.getValue s).toNat) ∧
    (∀ tbl, d.valueNames = some tbl →
      tbl[(d.getValue s).toNat]? = some none →
      valueStringContent d s = hexString (d.getValue s).toNat) ∧
    ((d.getValue s).toNat < 16 →
      (hexString (d.getValue s).toNat).length = 1) := by
  refine ⟨?_, ?_, ?_, ?_, hexString_length_one _⟩
  · show truncateTo len (valueStringContent d s) = _
    unfold truncateTo
    rw [List.take_of_length_le ?_]
    have hl : (valueStringContent d s).data.length =
        (valueStringContent d s).length := rfl
    omega
  · intro tbl lbl htbl hget
    simp [valueStringContent, htbl, hget]
  · intro h
    simp [valueStringContent, h]
  · intro tbl htbl hget
    simp [valueStringContent, htbl, hget]

/-- Witness for C3: the waveform descriptor at value 0 renders its
label "Sine" untruncated into a 16-byte buffer, the attack descriptor
(no table) renders hexadecimal, and a descriptor whose table has a
null entry at the current value falls back to hexadecimal. -/
theorem getValueString_rendering_witness :
    getValueString (descriptorOf .waveform 1) zeroSetup 16 =
      valueStringContent (descriptorOf .waveform 1) zeroSetup ∧
    valueStringContent (descriptorOf .waveform 1) zeroSetup = "Sine" ∧
    valueStringContent (descriptorOf .attack 1) zeroSetup = hexString 0 ∧
    valueStringContent
      { operatorNr := 1, maxValue := 2, nameBefore := "OP",
        nameAfter := " Test", valueNames := some [some "OFF", none],
        getValue := fun s => (s.ksr : Int),
        setValue := fun v s => { s with ksr := (v % 2).toNat } }
      { zeroSetup with ksr := 1 } = hexString 1 :=
  ⟨(getValueString_rendering (descriptorOf .waveform 1) zeroSetup 16
      (by decide)).1,
   (getValueString_rendering (descriptorOf .waveform 1) zeroSetup 16
      (by decide)).2.1 WaveformChoices "Sine" rfl rfl,
   (getValueString_rendering (descriptorOf .attack 1) zeroSetup 16
      (by decide)).2.2.1 rfl,
   (getValueString_rendering
      { operatorNr := 1, maxValue := 2, nameBefore := "OP",
        nameAfter := " Test", valueNames := some [some "OFF", none],
        getValue := fun s => (s.ksr : Int),
        setValue := fun v s => { s with ksr := (v % 2).toNat } }
      { zeroSetup with ksr := 1 } 16 (by decide)).2.2.2.1
     [some "OFF", none] rfl rfl⟩

/-- C4: clamping is idempotent at the boundaries: at value 0 any
negative delta leaves 0; at value `maxValue - 1` any positive delta
leaves `maxValue - 1`. -/
theorem boundary_clamp_idempotent (p : Param) (nr : Nat) (delta : Int)
    (s : OperatorSetup) :
    ((descriptorOf p nr).getValue s = 0 → delta < 0 →
      (descriptorOf p nr).getValue
        (onEncoderDelta (descriptorOf p nr) delta s) = 0) ∧
    ((descriptorOf p nr).getValue s = (descriptorOf p nr).maxValue - 1 →
      0 < delta →
      (descriptorOf p nr).getValue
        (onEncoderDelta (descriptorOf p nr) delta s) =
        (descriptorOf p nr).maxValue - 1) :=
  ⟨boundary_low _ (faithful_all p nr) (one_le_maxValue p nr) delta s,
   boundary_high _ (faithful_all p nr) (one_le_maxValue p nr) delta s⟩

/-- Witness for C4: the attack descriptor stays at 0 under delta -7
and at 15 under delta +7. -/
theorem boundary_clamp_idempotent_witness :
    (descriptorOf .attack 1).getValue
      (onEncoderDelta (descriptorOf .attack 1) (-7) zeroSetup) = 0 ∧
    (descriptorOf .attack 1).getValue
      (onEncoderDelta (descriptorOf .attack 1) 7 { zeroSetup with ar := 15 }) =
      (descriptorOf .attack 1).maxValue - 1 :=
  ⟨(boundary_clamp_idempotent .attack 1 (-7) zeroSetup).1
     (by decide) (by decide),
   (boundary_clamp_idempotent .attack 1 7 { zeroSetup with ar := 15 }).2
     (by decide) (by decide)⟩

/-- C5: the attack descriptor (`maxValue = 16`, no label table),
starting from value 0: `onEncoderDelta(+20)` leaves the bound `ar`
field at 15, and `getValueString` then yields the hexadecimal string
"f". -/
theorem attack_clamp_scenario :
    (onEncoderDelta (AttackValue 1) 20 zeroSetup).ar = 15 ∧
    getValueString (AttackValue 1)
      (onEncoderDelta (AttackValue 1) 20 zeroSetup) 16 = "f" := by
  decide

/-- C6: the waveform descriptor (`maxValue = 4`, labels Sine/HalfSine/
AbsSine/PulseSine), starting from value 0: `onEncoderDelta(+1)` sets
the bound field to 1, and `getValueString` then yields "HalfSine". -/
theorem waveform_step_scenario :
    (onEncoderDelta (WaveformValue 1) 1 zeroSetup).waveform = 1 ∧
    getValueString (WaveformValue 1)
      (onEncoderDelta (WaveformValue 1) 1 zeroSetup) 16 = "HalfSine" := by
  decide

/-- C7: `getParamString` renders the descriptor name into the buffer,
never occupying more than `len` bytes including the terminator,
truncating silently; the name substitutes the operator index bound at
construction into the template exactly once (operator 2 with the
attack template yields "OP2 Attack", containing one '2'). -/
theorem getParamString_spec (p : Param) (nr len : Nat) (hlen : 1 ≤ len) :
    (getParamString (descriptorOf p nr) len).length + 1 ≤ len ∧
    getParamString (descriptorOf p nr) len =
      String.mk ((formatName (descriptorOf p nr)).data.take (len - 1)) ∧
    formatName (descriptorOf p nr) =
      (descriptorOf p nr).nameBefore ++ toString nr ++
        (descriptorOf p nr).nameAfter ∧
    formatName (AttackValue 2) = "OP2 Attack" ∧
    (formatName (AttackValue 2)).data.count '2' = 1 := by
  refine ⟨?_, rfl, ?_, by decide, by decide⟩
  · have h : (getParamString (descriptorOf p nr) len).length =
        ((formatName (descriptorOf p nr)).data.take (len - 1)).length := rfl
    rw [h, List.length_take]
    have := Nat.min_le_left (len - 1)
      (formatName (descriptorOf p nr)).data.length
    omega
  · cases p <;> rfl

/-- Witness for C7: the attack descriptor for operator 2 fits with its
terminator in a 32-byte buffer. -/
theorem getParamString_spec_witness :
    (getParamString (descriptorOf .attack 2) 32).length + 1 ≤ 32 :=
  (getParamString_spec .attack 2 32 (by decide)).1

/-- C8: each variant reads and writes exactly the one field bound at
construction: `onEncoderDelta` and `setValue` leave every other field
of the operator-state record unchanged, and `getValue` depends only on
the bound field. -/
theorem descriptor_frame (p : Param) (nr : Nat) :
    (∀ delta s f, f ≠ boundField p →
      readField f (onEncoderDelta (descriptorOf p nr) delta s) =
        readField f s) ∧
    (∀ v s f, f ≠ boundField p →
      readField f ((descriptorOf p nr).setValue v s) = readField f s) ∧
    (∀ s t, readField (boundField p) s = readField (boundField p) t →
      (descriptorOf p nr).getValue s = (descriptorOf p nr).getValue t) := by
  refine ⟨?_, ?_, ?_⟩
  · intro delta s f hf
    cases p <;> cases f <;> first | rfl | exact absurd rfl hf
  · intro v s f hf
    cases p <;> cases f <;> first | rfl | exact absurd rfl hf
  · intro s t h
    cases p <;> exact congrArg (fun n : Nat => (n : Int)) h

/-- Witness for C8: the attack descriptor leaves `mult` and `vib`
untouched, and its read ignores `mult`. -/
theorem descriptor_frame_witness :
    readField .mult (onEncoderDelta (descriptorOf .attack 1) 5 zeroSetup) =
      readField .mult zeroSetup ∧
    readField .vib ((descriptorOf .attack 1).setValue 3 zeroSetup) =
      readField .vib zeroSetup ∧
    (descriptorOf .attack 1).getValue zeroSetup =
      (descriptorOf .attack 1).getValue { zeroSetup with mult := 7 } :=
  ⟨(descriptor_frame .attack 1).1 5 zeroSetup .mult (by decide),
   (descriptor_frame .attack 1).2.1 3 zeroSetup .vib (by decide),
   (descriptor_frame .attack 1).2.2 zeroSetup { zeroSetup with mult := 7 }
     (by decide)⟩

/-- C9: the frequency-multiplier label table has exactly 16 entries,
the descriptor's `maxValue` equals that length, and "10", "12", "15"
each appear exactly twice, at consecutive indices 10/11, 12/13 and
14/15. -/
theorem freqMult_table_duplicates (nr : Nat) :
    FrequencyMultiplierChoices.length = 16 ∧
    (FrequencyMutliplierValue nr).maxValue =
      (FrequencyMultiplierChoices.length : Int) ∧
    FrequencyMultiplierChoices.count (some "10") = 2 ∧
    FrequencyMultiplierChoices.count (some "12") = 2 ∧
    FrequencyMultiplierChoices.count (some "15") = 2 ∧
    FrequencyMultiplierChoices[10]? = some (some "10") ∧
    FrequencyMultiplierChoices[11]? = some (some "10") ∧
    FrequencyMultiplierChoices[12]? = some (some "12") ∧
    FrequencyMultiplierChoices[13]? = some (some "12") ∧
    FrequencyMultiplierChoices[14]? = some (some "15") ∧
    FrequencyMultiplierChoices[15]? = some (some "15") := by
  refine ⟨by decide, rfl, ?_, ?_, ?_, by decide, by decide, by decide,
    by decide, by decide, by decide⟩ <;> decide

/-- C10: every enumerated variant's `maxValue` equals its label-table
length (4, 16, 2), no table entry is null, so the unchecked indexing in
`getValueString` is in bounds and the hexadecimal fallback is
unreachable while the value stays in `[0, maxValue)`. -/
theorem enumerated_tables_safe (p : Param) (nr : Nat)
    (hp : p = .waveform ∨ p = .freqMult ∨ p = .envScaling ∨
      p = .sustainHold ∨ p = .vibrato ∨ p = .tremolo) :
    ∃ tbl, (descriptorOf p nr).valueNames = some tbl ∧
      (tbl.length : Int) = (descriptorOf p nr).maxValue ∧
      (∀ e ∈ tbl, e.isSome) ∧
      ∀ s, (descriptorOf p nr).getValue s < (descriptorOf p nr).maxValue →
        ∃ lbl, tbl[((descriptorOf p nr).getValue s).toNat]? =
            some (some lbl) ∧
          valueStringContent (descriptorOf p nr) s = lbl := by
  rcases hp with rfl | rfl | rfl | rfl | rfl | rfl
  · exact ⟨WaveformChoices, rfl, rfl, by decide, fun s hs =>
      enumerated_safe_generic _ _ s rfl (by decide) (Int.natCast_nonneg _)
        rfl hs⟩
  · exact ⟨FrequencyMultiplierChoices, rfl, rfl, by decide, fun s hs =>
      enumerated_safe_generic _ _ s rfl (by decide) (Int.natCast_nonneg _)
        rfl hs⟩
  · exact ⟨BoolChoices, rfl, rfl, by decide, fun s hs =>
      enumerated_safe_generic _ _ s rfl (by decide) (Int.natCast_nonneg _)
        rfl hs⟩
  · exact ⟨BoolChoices, rfl, rfl, by decide, fun s hs =>
      enumerated_safe_generic _ _ s rfl (by decide) (Int.natCast_nonneg _)
        rfl hs⟩
  · exact ⟨BoolChoices, rfl, rfl, by decide, fun s hs =>
      enumerated_safe_generic _ _ s rfl (by decide) (Int.natCast_nonneg _)
        rfl hs⟩
  · exact ⟨BoolChoices, rfl, rfl, by decide, fun s hs =>
      enumerated_safe_generic _ _ s rfl (by decide) (Int.natCast_nonneg _)
        rfl hs⟩

/-- Witness for C10: instantiated at the waveform variant. -/
theorem enumerated_tables_safe_witness :
    ∃ tbl, (descriptorOf .waveform 1).valueNames = some tbl ∧
      (tbl.length : Int) = (descriptorOf .waveform 1).maxValue ∧
      (∀ e ∈ tbl, e.isSome) ∧
      ∀ s, (descriptorOf .waveform 1).getValue s <
          (descriptorOf .waveform 1).maxValue →
        ∃ lbl, tbl[((descriptorOf .waveform 1).getValue s).toNat]? =
            some (some lbl) ∧
          valueStringContent (descriptorOf .waveform 1) s = lbl :=
  enumerated_tables_safe .waveform 1 (Or.inl rfl)

end OPL3box
